import Mathlib

/-!
Shallow embedding of the docker remote-image inspection and remote tag listing
code (package distribution: inspect.go, inspect_v1.go, inspect_v2.go, list_v1.go,
list_v2.go).  Network collaborators (registry service, transport, session,
manifest service) are modelled as oracle fields of environment structures; the
control flow of the embedded functions follows the Go source line by line.
-/

/-- Error values.  The Go code distinguishes errors of the concrete type
registry.ErrNoSupport (checked with a type assertion) from every other error;
we model this with a two-constructor inductive carrying the message. -/
inductive RegErr where
  | noSupport (m : String)
  | other (m : String)
deriving DecidableEq, Repr

/-- Test modelling the Go type assertion err.(registry.ErrNoSupport). -/
def RegErr.isNoSupport : RegErr → Bool
  | .noSupport _ => true
  | .other _ => false

/-- Message carried by an error (err.Error() in Go). -/
def RegErr.msg : RegErr → String
  | .noSupport m => m
  | .other m => m

/-- One registry API endpoint: protocol version (1 or 2 for the known
generations) and URL, as in registry.APIEndpoint. -/
structure APIEndpoint where
  version : Nat
  url : String
deriving DecidableEq, Repr

/-- Parsed image reference (reference.Named): a bare name, a tag-qualified
name (reference.Tagged) or a digest-qualified name (reference.Digested).
Tag and digest are mutually exclusive, which the inductive enforces. -/
inductive Ref where
  | name (n : String)
  | tagged (n : String) (tag : String)
  | digested (n : String) (dgst : String)
deriving DecidableEq, Repr

/-- Resolved repository information (registry.RepositoryInfo): canonical
name, local name, remote name, index name and the configured mirrors. -/
structure RepositoryInfo where
  canonicalName : String
  localName : String
  remoteName : String
  indexName : String
  mirrors : List String
deriving DecidableEq, Repr

/-- Normalized inspection record (types.RemoteImageInspect).  The claims under
study never look inside the record, so only the fields needed to distinguish
records are kept. -/
structure RemoteImageInspect where
  id : String
  repoTags : List String
  registry : String
deriving DecidableEq, Repr

/-- One tag entry of a listing (types.RepositoryTag). -/
structure RepositoryTag where
  tag : String
  imageID : String
deriving DecidableEq, Repr

/-- Result of a tag listing (types.RepositoryTagList). -/
structure RepositoryTagList where
  name : String
  tagList : List RepositoryTag
deriving DecidableEq, Repr

/-- Decoded image (image.Image); only an identifier is needed here. -/
structure Image where
  id : String
deriving DecidableEq, Repr

/-- The well-known default tag (tag.DefaultTag in the Go source). -/
def defaultTag : String := "latest"

/-- The two-field error accumulator threaded through the endpoint loops of
fetchManifest and getRemoteTagList: the remembered last error and the
discardNoSupportErrors flag. -/
structure ErrAcc where
  lastErr : Option RegErr
  discard : Bool
deriving DecidableEq, Repr

/-- Shared fallback-error classification branch of the endpoint loops
(inspect.go lines 196-205 and inspect_v1.go lines 310-319, which are
textually identical): a non-ErrNoSupport error is always saved and sets the
discard flag; an ErrNoSupport error is saved only while the flag is unset. -/
def saveFallbackError (acc : ErrAcc) (e : RegErr) : ErrAcc :=
  if e.isNoSupport = false then { lastErr := some e, discard := true }
  else if acc.discard = false then { lastErr := some e, discard := acc.discard }
  else acc

/-- Environment of oracle collaborators for the resolution orchestrator:
registry-service lookups, reference qualification, the per-endpoint manifest
fetchers and tag listers.  Fetch and ListTags return the Go triple
(result, fallback, err). -/
structure Env where
  isReferenceFullyQualified : Ref → Bool
  registryList : List String
  fullyQualifyReferenceWith : String → Ref → Except RegErr Ref
  resolveRepository : Ref → Except RegErr RepositoryInfo
  validateRepoName : String → Option RegErr
  validateRepositoryName : Ref → Option RegErr
  lookupPullEndpoints : String → Except RegErr (List APIEndpoint)
  fetch : APIEndpoint → Ref → Option RemoteImageInspect × Bool × Option RegErr
  listTags : APIEndpoint → List RepositoryTag × Bool × Option RegErr

/-- Constructor dispatch of newManifestFetcher (inspect.go lines 75-91):
versions 2 and 1 have fetchers, any other version is an error. -/
def newManifestFetcher (ep : APIEndpoint) : Except RegErr Unit :=
  if ep.version = 2 then .ok ()
  else if ep.version = 1 then .ok ()
  else .error (.other ("unknown version " ++ toString ep.version ++ " for registry " ++ ep.url))

/-- Constructor dispatch of newTagLister (inspect_v1.go lines 248-264), same
version policy as newManifestFetcher. -/
def newTagLister (ep : APIEndpoint) : Except RegErr Unit :=
  if ep.version = 2 then .ok ()
  else if ep.version = 1 then .ok ()
  else .error (.other ("unknown version " ++ toString ep.version ++ " for registry " ++ ep.url))

/-- Endpoint loop of fetchManifest (inspect.go lines 184-218).  A constructor
error saves the error and continues; a fetch error continues through the
fallback classification when fallback is set and aborts otherwise; success
returns immediately.  When the list is exhausted the remembered last error is
returned, or the generic no-endpoints error if none was recorded. -/
def fetchManifestLoop (env : Env) (ri : RepositoryInfo) (ref : Ref) :
    List APIEndpoint → ErrAcc → Option RemoteImageInspect × Option RegErr
  | [], acc =>
    match acc.lastErr with
    | some e => (none, some e)
    | none => (none, some (.other ("no endpoints found for " ++ ri.indexName)))
  | ep :: rest, acc =>
    match newManifestFetcher ep with
    | .error e => fetchManifestLoop env ri ref rest { lastErr := some e, discard := acc.discard }
    | .ok _ =>
      match env.fetch ep ref with
      | (imgInspect, _, none) => (imgInspect, none)
      | (_, fallback, some e) =>
        if fallback then fetchManifestLoop env ri ref rest (saveFallbackError acc e)
        else (none, some e)

/-- fetchManifest (inspect.go lines 156-219): resolve the repository,
validate the local name, look up the pull endpoints and run the endpoint
loop with an empty error accumulator. -/
def fetchManifest (env : Env) (ref : Ref) : Option RemoteImageInspect × Option RegErr :=
  match env.resolveRepository ref with
  | .error e => (none, some e)
  | .ok repoInfo =>
    match env.validateRepoName repoInfo.localName with
    | some e => (none, some e)
    | none =>
      match env.lookupPullEndpoints repoInfo.canonicalName with
      | .error e => (none, some e)
      | .ok endpoints =>
        fetchManifestLoop env repoInfo ref endpoints { lastErr := none, discard := false }

/-- Registry-candidate loop of Inspect (inspect.go lines 140-152): a
qualification failure records the error and continues; a fetchManifest call
with nil error returns its result; otherwise the error is recorded and the
next candidate is tried. -/
def inspectLoop (env : Env) (ref : Ref) :
    List String → Option RemoteImageInspect → Option RegErr →
    Option RemoteImageInspect × Option RegErr
  | [], imageInspect, err => (imageInspect, err)
  | r :: rest, imageInspect, _ =>
    match env.fullyQualifyReferenceWith r ref with
    | .error e => inspectLoop env ref rest imageInspect (some e)
    | .ok fqr =>
      match fetchManifest env fqr with
      | (result, none) => (result, none)
      | (result, some e) => inspectLoop env ref rest result (some e)

/-- Inspect (inspect.go lines 127-154): a fully qualified reference goes
straight to fetchManifest; otherwise the configured registry list is
iterated, failing immediately when it is empty. -/
def Inspect (env : Env) (ref : Ref) : Option RemoteImageInspect × Option RegErr :=
  if env.isReferenceFullyQualified ref then fetchManifest env ref
  else if env.registryList.length = 0 then
    (none, some (.other "No configured registry to pull from."))
  else inspectLoop env ref env.registryList none none

/-- Prefix test modelling strings.HasPrefix (byte-wise, which agrees with the
character-wise test on UTF-8 strings). -/
def hasPrefixGo (s pre : String) : Bool := pre.data.isPrefixOf s.data

/-- Comparison of byTagName (list.go lines 176-180): Less compares the tag
strings with the lexicographic String order (realized on the character
lists, which is the same relation by String.lt_iff_toList_lt). -/
def byTagNameLess (a b : RepositoryTag) : Bool := a.tag.data < b.tag.data

/-- Order induced on tag entries by a sort consistent with byTagNameLess:
an entry a may precede b exactly when Less b a is false. -/
def tagLe (a b : RepositoryTag) : Prop := byTagNameLess b a = false

instance : DecidableRel tagLe := fun a b => instDecidableEqBool (byTagNameLess b a) false

theorem tagLe_iff (a b : RepositoryTag) : tagLe a b ↔ a.tag ≤ b.tag := by
  simp only [tagLe, byTagNameLess, decide_eq_false_iff_not]
  show ¬ b.tag.toList < a.tag.toList ↔ _
  rw [← String.lt_iff_toList_lt, not_lt]

instance : IsTotal RepositoryTag tagLe :=
  ⟨fun a b => (le_total a.tag b.tag).imp (tagLe_iff a b).mpr (tagLe_iff b a).mpr⟩

instance : IsTrans RepositoryTag tagLe :=
  ⟨fun a b c hab hbc =>
    (tagLe_iff a c).mpr (le_trans ((tagLe_iff a b).mp hab) ((tagLe_iff b c).mp hbc))⟩

/-- Model of sort.Sort(byTagName(tagList)) (inspect_v1.go line 326): any
correct sort yields a list ordered consistently with the Less comparison;
insertion sort realizes it. -/
def sortByTagName (l : List RepositoryTag) : List RepositoryTag :=
  List.insertionSort tagLe l

/-- Comparison of byAPIVersion (inspect_v1.go lines 182-194): lower protocol
version first; among equal versions an https URL before a non-https one. -/
def byAPIVersionLess (a b : APIEndpoint) : Bool :=
  if a.version < b.version then true
  else if a.version == b.version && hasPrefixGo a.url "https://" &&
      !(hasPrefixGo b.url "https://") then true
  else false

/-- Order induced on endpoints by a sort consistent with byAPIVersionLess. -/
def endpointLe (a b : APIEndpoint) : Prop := byAPIVersionLess b a = false

instance : DecidableRel endpointLe := fun a b => instDecidableEqBool (byAPIVersionLess b a) false

/-- Numeric rank realizing byAPIVersionLess as a strict order on Nat. -/
def endpointRank (ep : APIEndpoint) : Nat :=
  2 * ep.version + (if hasPrefixGo ep.url "https://" then 0 else 1)

theorem byAPIVersionLess_iff (a b : APIEndpoint) :
    byAPIVersionLess a b = true ↔ endpointRank a < endpointRank b := by
  unfold byAPIVersionLess endpointRank
  by_cases h1 : hasPrefixGo a.url "https://" <;> by_cases h2 : hasPrefixGo b.url "https://" <;>
    simp only [h1, h2, Bool.and_eq_true, beq_iff_eq, Bool.not_eq_true', if_true, if_false] <;>
    split_ifs <;> simp_all <;> omega

theorem endpointLe_iff (a b : APIEndpoint) :
    endpointLe a b ↔ endpointRank a ≤ endpointRank b := by
  rw [endpointLe, ← Bool.not_eq_true, byAPIVersionLess_iff, not_lt]

instance : IsTotal APIEndpoint endpointLe :=
  ⟨fun a b =>
    (le_total (endpointRank a) (endpointRank b)).imp (endpointLe_iff a b).mpr
      (endpointLe_iff b a).mpr⟩

instance : IsTrans APIEndpoint endpointLe :=
  ⟨fun a b c hab hbc =>
    (endpointLe_iff a c).mpr
      (le_trans ((endpointLe_iff a b).mp hab) ((endpointLe_iff b c).mp hbc))⟩

/-- Model of sort.Sort(byAPIVersion(endpoints)) (inspect_v1.go line 282). -/
def sortEndpoints (eps : List APIEndpoint) : List APIEndpoint :=
  List.insertionSort endpointLe eps

/-- Endpoint loop of getRemoteTagList (inspect_v1.go lines 296-333).  Unlike
the fetchManifest loop, an error continues to the next endpoint when either
the fallback flag is set or the endpoint has protocol version 1. -/
def getRemoteTagListLoop (env : Env) (ri : RepositoryInfo) :
    List APIEndpoint → ErrAcc → Option RepositoryTagList × Option RegErr
  | [], acc =>
    match acc.lastErr with
    | some e => (none, some e)
    | none => (none, some (.other ("no endpoints found for " ++ ri.indexName)))
  | ep :: rest, acc =>
    match newTagLister ep with
    | .error e => getRemoteTagListLoop env ri rest { lastErr := some e, discard := acc.discard }
    | .ok _ =>
      match env.listTags ep with
      | (tags, _, none) => (some { name := ri.canonicalName, tagList := sortByTagName tags }, none)
      | (_, fallback, some e) =>
        if fallback || ep.version == 1 then
          getRemoteTagListLoop env ri rest (saveFallbackError acc e)
        else (none, some e)

/-- getRemoteTagList (inspect_v1.go lines 266-334): resolve, validate, look
up the pull endpoints, sort them with byAPIVersion and run the loop. -/
def getRemoteTagList (env : Env) (ref : Ref) : Option RepositoryTagList × Option RegErr :=
  match env.resolveRepository ref with
  | .error e => (none, some e)
  | .ok repoInfo =>
    match env.validateRepoName repoInfo.localName with
    | some e => (none, some e)
    | none =>
      match env.lookupPullEndpoints repoInfo.canonicalName with
      | .error e => (none, some e)
      | .ok endpoints =>
        getRemoteTagListLoop env repoInfo (sortEndpoints endpoints)
          { lastErr := none, discard := false }

/-- Registry-candidate loop of ListRemoteTags (inspect_v1.go lines 232-243),
structured like the loop of Inspect. -/
def listRemoteTagsLoop (env : Env) (ref : Ref) :
    List String → Option RepositoryTagList → Option RegErr →
    Option RepositoryTagList × Option RegErr
  | [], tagList, err => (tagList, err)
  | r :: rest, tagList, _ =>
    match env.fullyQualifyReferenceWith r ref with
    | .error e => listRemoteTagsLoop env ref rest tagList (some e)
    | .ok fqr =>
      match getRemoteTagList env fqr with
      | (result, none) => (result, none)
      | (result, some e) => listRemoteTagsLoop env ref rest result (some e)

/-- ListRemoteTags (inspect_v1.go lines 218-245): fully qualified references
go straight to getRemoteTagList; otherwise the repository name is validated
and the configured registry list is iterated. -/
def ListRemoteTags (env : Env) (ref : Ref) : Option RepositoryTagList × Option RegErr :=
  if env.isReferenceFullyQualified ref then getRemoteTagList env ref
  else if env.registryList.length = 0 then
    (none, some (.other "No configured registry to pull from."))
  else
    match env.validateRepositoryName ref with
    | some e => (none, some e)
    | none => listRemoteTagsLoop env ref env.registryList none none

/-- Substring test modelling strings.Contains (used for the HTTP 404 check in
fetchWithSession). -/
def containsSubstr (s pat : String) : Bool := (s.splitOn pat).length != 1

/-- Repository data returned by session.GetRepositoryData (registry.RepositoryData);
only the primary endpoint addresses are relevant to the embedded control flow. -/
structure RepoData where
  endpoints : List String
deriving DecidableEq, Repr

/-- Oracle collaborators of the v1 session path: GetRepositoryData,
GetRemoteTags (a tag-to-image-id map, modelled as an association list in the
iteration order of the Go map) and the per-address image JSON retrieval
pullImageJSON (inspect_v1.go lines 138-160, whose internals are chained
external calls). -/
structure V1SessionEnv where
  repoData : Except RegErr RepoData
  remoteTags : Except RegErr (List (String × String))
  pullImageJSON : String → String → Except RegErr Image

/-- One of the two identical per-address retrieval loops of fetchWithSession
(inspect_v1.go lines 110-117 and 119-126): each failing address records the
error and continues, the first success stops with the image and a nil error. -/
def pullImageLoop (pull : String → String → Except RegErr Image) (imgID : String) :
    List String → Option Image × Option RegErr → Option Image × Option RegErr
  | [], st => st
  | ep :: rest, _ =>
    match pull imgID ep with
    | .error e => pullImageLoop pull imgID rest (none, some e)
    | .ok img => (some img, none)

/-- Two-phase image retrieval of fetchWithSession (inspect_v1.go lines
109-127): all mirrors first, then, only when no mirror produced an image,
the primary repository endpoints. -/
def pullImagePhase (pull : String → String → Except RegErr Image) (imgID : String)
    (mirrors endpoints : List String) : Option Image × Option RegErr :=
  let st := pullImageLoop pull imgID mirrors (none, none)
  if st.1.isNone then pullImageLoop pull imgID endpoints st else st

/-- Tag recorded for an image id by the ImgList registration loop
(inspect_v1.go lines 81-87): later entries of the iteration overwrite
earlier ones, so the last matching tag wins. -/
def imgTagFor (tagsList : List (String × String)) (id : String) : String :=
  tagsList.foldl (fun acc p => if p.2 = id then p.1 else acc) ""

/-- Wrapping applied when the retrieval loops end with an error
(inspect_v1.go line 129). -/
def wrapPullError (imgTag canonicalName : String) (e : RegErr) : RegErr :=
  .other ("Error pulling image (" ++ imgTag ++ ") from " ++ canonicalName ++ ", " ++ e.msg)

/-- Construction of the normalized record (inspect.go lines 93-124),
abridged to the fields kept in RemoteImageInspect. -/
def makeRemoteImageInspect (ri : RepositoryInfo) (img : Image) (tag : String) :
    RemoteImageInspect :=
  { id := img.id
    repoTags := if tag = "" then [] else [ri.canonicalName ++ ":" ++ tag]
    registry := ri.indexName }

/-- fetchWithSession (inspect_v1.go lines 61-136): repository data, remote
tag map, empty-map check, default-tag resolution, tag lookup, then the
two-phase image retrieval and the final error and nil checks. -/
def fetchWithSession (env : V1SessionEnv) (ri : RepositoryInfo) (askedTag : String) :
    Option RemoteImageInspect × Option RegErr :=
  match env.repoData with
  | .error e =>
    if containsSubstr e.msg "HTTP code: 404" then
      (none, some (.other ("Error: image " ++ ri.remoteName ++ " not found")))
    else (none, some e)
  | .ok repoData =>
    match env.remoteTags with
    | .error e => (none, some e)
    | .ok tagsList =>
      if tagsList.length < 1 then
        (none, some (.other ("No tags available for remote repository " ++ ri.canonicalName)))
      else
        let askedTag1 :=
          if askedTag = "" then
            if (List.lookup defaultTag tagsList).isSome then defaultTag else askedTag
          else askedTag
        let askedTag2 := if askedTag1 = "" then (tagsList.headD ("", "")).1 else askedTag1
        match List.lookup askedTag2 tagsList with
        | none =>
          (none, some (.other ("Tag " ++ askedTag2 ++ " not found in repository " ++
            ri.canonicalName)))
        | some id =>
          let st := pullImagePhase env.pullImageJSON id ri.mirrors repoData.endpoints
          match st.2 with
          | some e => (none, some (wrapPullError (imgTagFor tagsList id) ri.canonicalName e))
          | none =>
            match st.1 with
            | none =>
              (none, some (.other ("No such image " ++ ri.canonicalName ++ ":" ++ askedTag2)))
            | some img => (some (makeRemoteImageInspect ri img askedTag2), none)

/-- Oracle collaborators of the v1 Fetch preamble: TLS configuration,
conversion to a v1 endpoint, session creation. -/
structure V1FetchEnv where
  tlsConfig : Except RegErr Unit
  toV1Endpoint : Except RegErr Unit
  newSession : Except RegErr Unit
  session : V1SessionEnv

/-- v1ManifestFetcher.Fetch (inspect_v1.go lines 26-59): a digest-qualified
reference is rejected immediately with a fallback-eligible ErrNoSupport;
otherwise the session is built (TLS failure is fatal, endpoint conversion and
session failures are fallback-eligible) and fetchWithSession runs with the
tag of the reference. -/
def v1Fetch (env : V1FetchEnv) (ri : RepositoryInfo) (ref : Ref) :
    Option RemoteImageInspect × Bool × Option RegErr :=
  match ref with
  | .digested _ _ => (none, true, some (.noSupport "Cannot pull by digest with v1 registry"))
  | _ =>
    let tag :=
      match ref with
      | .tagged _ t => t
      | _ => ""
    match env.tlsConfig with
    | .error e => (none, false, some e)
    | .ok _ =>
      match env.toV1Endpoint with
      | .error e => (none, true, some e)
      | .ok _ =>
        match env.newSession with
        | .error e => (none, true, some e)
        | .ok _ =>
          let r := fetchWithSession env.session ri tag
          (r.1, false, r.2)

/-- Signed manifest document as received over the wire (schema1.SignedManifest);
its contents are opaque to the claims under study. -/
structure SignedManifest where
  payload : String
deriving DecidableEq, Repr

/-- Oracle collaborators of the v2 path: the manifest service accessors
(Exists, Get, ExistsByTag, GetByTag, Tags) and processManifest, which stands
for the verification and decoding pipeline of fetchWithRepository lines
100-161 (verifyManifest, fixManifestLayers, history reconstruction and
record synthesis, whose helpers live outside the embedded files). -/
structure V2Env where
  tags : Except RegErr (List String)
  existsByDigest : String → Except RegErr Bool
  getByDigest : String → Except RegErr (Option SignedManifest)
  existsByTag : String → Except RegErr Bool
  getByTag : String → Except RegErr (Option SignedManifest)
  processManifest : SignedManifest → String → Option RemoteImageInspect × Option RegErr

/-- Continuation of fetchWithRepository once a tag is selected
(inspect_v2.go lines 96-105 and onward): fetch by tag, fail on a nil
manifest, then hand over to the decoding pipeline. -/
def v2ContinueWithTag (env : V2Env) (tag : String) :
    Option RemoteImageInspect × Option RegErr :=
  match env.getByTag tag with
  | .error e => (none, some e)
  | .ok none => (none, some (.other ("image manifest does not exist for tag or digest " ++ tag)))
  | .ok (some m) => env.processManifest m tag

/-- v2ManifestFetcher.fetchWithRepository (inspect_v2.go lines 42-162):
digest-qualified references check existence by digest then fetch by digest;
tag-qualified references check existence by tag then fetch by tag;
unqualified references enumerate the tags, prefer the default tag when the
enumeration contains it, otherwise take the first enumerated tag, and fail
when no tag was chosen. -/
def v2FetchWithRepository (env : V2Env) (ri : RepositoryInfo) (ref : Ref) :
    Option RemoteImageInspect × Option RegErr :=
  match ref with
  | .digested _ d =>
    match env.existsByDigest d with
    | .error e => (none, some e)
    | .ok false =>
      (none, some (.other ("Digest \"" ++ d ++ "\" does not exist in remote repository " ++
        ri.canonicalName)))
    | .ok true =>
      match env.getByDigest d with
      | .error e => (none, some e)
      | .ok none =>
        (none, some (.other ("image manifest does not exist for tag or digest " ++ d)))
      | .ok (some m) => env.processManifest m d
  | .tagged _ t =>
    match env.existsByTag t with
    | .error e => (none, some e)
    | .ok false =>
      (none, some (.other ("Tag \"" ++ t ++ "\" does not exist in remote repository " ++
        ri.canonicalName)))
    | .ok true => v2ContinueWithTag env t
  | .name _ =>
    match env.tags with
    | .error e => (none, some e)
    | .ok tagList =>
      let tag := tagList.foldl (fun tag t => if t = defaultTag then defaultTag else tag) ""
      let tag := if tag = "" ∧ 0 < tagList.length then tagList.headD "" else tag
      if tag = "" then
        (none, some (.other ("No tags available for remote repository " ++ ri.canonicalName)))
      else v2ContinueWithTag env tag

theorem saveFallbackError_discard (acc : ErrAcc) (e : RegErr) :
    (saveFallbackError acc e).discard = (acc.discard || !e.isNoSupport) := by
  cases e <;> cases h : acc.discard <;> simp [saveFallbackError, RegErr.isNoSupport, h]

theorem foldl_saveFallbackError_discard (es : List RegErr) :
    ∀ acc : ErrAcc,
      (es.foldl saveFallbackError acc).discard
        = (acc.discard || es.any fun e => !e.isNoSupport) := by
  induction es with
  | nil => intro acc; simp
  | cons e t ih =>
    intro acc
    simp [List.foldl_cons, List.any_cons, ih, saveFallbackError_discard, Bool.or_assoc]

/-- C1.  In the per-registry endpoint loop of both fetchManifest and
getRemoteTagList, the accumulator (lastErr, discardNoSupportErrors)
satisfies: the discard flag is set exactly when a non-ErrNoSupport fallback
error has been observed; while it is unset an ErrNoSupport error is stored
as lastErr; once it is set an ErrNoSupport error never overwrites lastErr;
a non-ErrNoSupport fallback error always overwrites lastErr (and sets the
flag); and both endpoint loops update the accumulator with exactly this
classification on every fallback-eligible error. -/
theorem spec_C1 :
    (∀ es : List RegErr,
        (es.foldl saveFallbackError { lastErr := none, discard := false }).discard
          = es.any fun e => !e.isNoSupport)
  ∧ (∀ (acc : ErrAcc) (e : RegErr), e.isNoSupport = true → acc.discard = true →
        saveFallbackError acc e = acc)
  ∧ (∀ (acc : ErrAcc) (e : RegErr), e.isNoSupport = true → acc.discard = false →
        saveFallbackError acc e = { lastErr := some e, discard := false })
  ∧ (∀ (acc : ErrAcc) (e : RegErr), e.isNoSupport = false →
        saveFallbackError acc e = { lastErr := some e, discard := true })
  ∧ (∀ (env : Env) (ri : RepositoryInfo) (ref : Ref) (ep : APIEndpoint)
        (rest : List APIEndpoint) (acc : ErrAcc) (img : Option RemoteImageInspect) (e : RegErr),
        newManifestFetcher ep = .ok () → env.fetch ep ref = (img, true, some e) →
        fetchManifestLoop env ri ref (ep :: rest) acc
          = fetchManifestLoop env ri ref rest (saveFallbackError acc e))
  ∧ (∀ (env : Env) (ri : RepositoryInfo) (ep : APIEndpoint)
        (rest : List APIEndpoint) (acc : ErrAcc) (tags : List RepositoryTag) (e : RegErr),
        newTagLister ep = .ok () → env.listTags ep = (tags, true, some e) →
        getRemoteTagListLoop env ri (ep :: rest) acc
          = getRemoteTagListLoop env ri rest (saveFallbackError acc e)) := by
  refine ⟨?_, ?_, ?_, ?_, ?_, ?_⟩
  · intro es; rw [foldl_saveFallbackError_discard]; simp
  · intro acc e h hd; simp [saveFallbackError, h, hd]
  · intro acc e h hd; simp [saveFallbackError, h, hd]
  · intro acc e h; simp [saveFallbackError, h]
  · intro env ri ref ep rest acc img e hnew hfetch
    simp [fetchManifestLoop, hnew, hfetch]
  · intro env ri ep rest acc tags e hnew hlist
    simp [getRemoteTagListLoop, hnew, hlist]

theorem spec_C1_witness :
    saveFallbackError { lastErr := some (RegErr.other "real"), discard := true }
        (RegErr.noSupport "unsupported")
      = { lastErr := some (RegErr.other "real"), discard := true } :=
  spec_C1.2.1 { lastErr := some (RegErr.other "real"), discard := true }
    (RegErr.noSupport "unsupported") (by decide) (by decide)

/-- C3.  The v1 protocol fetcher rejects every digest-qualified reference
with a fallback-eligible ErrNoSupport, for every environment (so no
collaborator is consulted): never a success, never a non-fallback error. -/
theorem spec_C3 (env : V1FetchEnv) (ri : RepositoryInfo) (n d : String) :
    v1Fetch env ri (Ref.digested n d)
      = (none, true, some (.noSupport "Cannot pull by digest with v1 registry")) := rfl

/-- C4.  When the endpoint list is exhausted, both loops return the
remembered last error, and the generic no-endpoints error exactly when none
was recorded; in particular a single endpoint whose only failure is an
ErrNoSupport makes the whole call fail with that ErrNoSupport error. -/
theorem spec_C4 :
    (∀ (env : Env) (ri : RepositoryInfo) (ref : Ref) (e : RegErr) (d : Bool),
        fetchManifestLoop env ri ref [] { lastErr := some e, discard := d } = (none, some e))
  ∧ (∀ (env : Env) (ri : RepositoryInfo) (ref : Ref) (d : Bool),
        fetchManifestLoop env ri ref [] { lastErr := none, discard := d }
          = (none, some (.other ("no endpoints found for " ++ ri.indexName))))
  ∧ (∀ (env : Env) (ri : RepositoryInfo) (e : RegErr) (d : Bool),
        getRemoteTagListLoop env ri [] { lastErr := some e, discard := d } = (none, some e))
  ∧ (∀ (env : Env) (ri : RepositoryInfo) (d : Bool),
        getRemoteTagListLoop env ri [] { lastErr := none, discard := d }
          = (none, some (.other ("no endpoints found for " ++ ri.indexName))))
  ∧ (∀ (env : Env) (ref : Ref) (ri : RepositoryInfo) (ep : APIEndpoint) (m : String),
        env.resolveRepository ref = .ok ri →
        env.validateRepoName ri.localName = none →
        env.lookupPullEndpoints ri.canonicalName = .ok [ep] →
        newManifestFetcher ep = .ok () →
        env.fetch ep ref = (none, true, some (.noSupport m)) →
        fetchManifest env ref = (none, some (.noSupport m)))
  ∧ (∀ (env : Env) (ref : Ref) (ri : RepositoryInfo) (ep : APIEndpoint) (m : String)
        (tags : List RepositoryTag),
        env.resolveRepository ref = .ok ri →
        env.validateRepoName ri.localName = none →
        env.lookupPullEndpoints ri.canonicalName = .ok [ep] →
        newTagLister ep = .ok () →
        env.listTags ep = (tags, true, some (.noSupport m)) →
        getRemoteTagList env ref = (none, some (.noSupport m))) := by
  refine ⟨?_, ?_, ?_, ?_, ?_, ?_⟩
  · intro env ri ref e d; simp [fetchManifestLoop]
  · intro env ri ref d; simp [fetchManifestLoop]
  · intro env ri e d; simp [getRemoteTagListLoop]
  · intro env ri d; simp [getRemoteTagListLoop]
  · intro env ref ri ep m h1 h2 h3 h4 h5
    simp [fetchManifest, h1, h2, h3, fetchManifestLoop, h4, h5, saveFallbackError,
      RegErr.isNoSupport]
  · intro env ref ri ep m tags h1 h2 h3 h4 h5
    simp [getRemoteTagList, h1, h2, h3, sortEndpoints, List.insertionSort, List.orderedInsert,
      getRemoteTagListLoop, h4, h5, saveFallbackError, RegErr.isNoSupport]

def riW : RepositoryInfo :=
  { canonicalName := "docker.io/library/x", localName := "library/x",
    remoteName := "library/x", indexName := "docker.io", mirrors := [] }

def envC4 : Env :=
  { isReferenceFullyQualified := fun _ => true
    registryList := []
    fullyQualifyReferenceWith := fun _ r => .ok r
    resolveRepository := fun _ => .ok riW
    validateRepoName := fun _ => none
    validateRepositoryName := fun _ => none
    lookupPullEndpoints := fun _ => .ok [{ version := 2, url := "https://reg" }]
    fetch := fun _ _ => (none, true, some (.noSupport "Cannot pull by digest with v1 registry"))
    listTags := fun _ => ([], true, some (.noSupport "no support")) }

theorem spec_C4_witness :
    fetchManifest envC4 (Ref.digested "library/x" "sha256:abc")
      = (none, some (.noSupport "Cannot pull by digest with v1 registry")) :=
  spec_C4.2.2.2.2.1 envC4 (Ref.digested "library/x" "sha256:abc") riW
    { version := 2, url := "https://reg" } "Cannot pull by digest with v1 registry"
    rfl rfl rfl rfl rfl

/-- C10.  In the tag-listing endpoint loop an error at a version-1 endpoint
continues to the next endpoint even when the lister reported it
non-fallback, while a non-fallback error at a version-2 endpoint aborts the
whole operation; the inspection loop aborts on a non-fallback error at
either version. -/
theorem spec_C10 :
    (∀ (env : Env) (ri : RepositoryInfo) (ep : APIEndpoint) (rest : List APIEndpoint)
        (acc : ErrAcc) (tags : List RepositoryTag) (e : RegErr), ep.version = 1 →
        env.listTags ep = (tags, false, some e) →
        getRemoteTagListLoop env ri (ep :: rest) acc
          = getRemoteTagListLoop env ri rest (saveFallbackError acc e))
  ∧ (∀ (env : Env) (ri : RepositoryInfo) (ep : APIEndpoint) (rest : List APIEndpoint)
        (acc : ErrAcc) (tags : List RepositoryTag) (e : RegErr), ep.version = 2 →
        env.listTags ep = (tags, false, some e) →
        getRemoteTagListLoop env ri (ep :: rest) acc = (none, some e))
  ∧ (∀ (env : Env) (ri : RepositoryInfo) (ref : Ref) (ep : APIEndpoint)
        (rest : List APIEndpoint) (acc : ErrAcc) (img : Option RemoteImageInspect) (e : RegErr),
        ep.version = 1 ∨ ep.version = 2 →
        env.fetch ep ref = (img, false, some e) →
        fetchManifestLoop env ri ref (ep :: rest) acc = (none, some e)) := by
  refine ⟨?_, ?_, ?_⟩
  · intro env ri ep rest acc tags e hv hlist
    simp [getRemoteTagListLoop, newTagLister, hv, hlist]
  · intro env ri ep rest acc tags e hv hlist
    simp [getRemoteTagListLoop, newTagLister, hv, hlist]
  · intro env ri ref ep rest acc img e hv hfetch
    rcases hv with hv | hv <;> simp [fetchManifestLoop, newManifestFetcher, hv, hfetch]

def envC10 : Env :=
  { isReferenceFullyQualified := fun _ => true
    registryList := []
    fullyQualifyReferenceWith := fun _ r => .ok r
    resolveRepository := fun _ => .ok riW
    validateRepoName := fun _ => none
    validateRepositoryName := fun _ => none
    lookupPullEndpoints := fun _ => .ok []
    fetch := fun _ _ => (none, false, some (.other "fetch failed"))
    listTags := fun _ => ([], false, some (.other "list failed")) }

theorem spec_C10_witness :
    getRemoteTagListLoop envC10 riW [{ version := 1, url := "http://reg" }]
        { lastErr := none, discard := false }
      = getRemoteTagListLoop envC10 riW []
          (saveFallbackError { lastErr := none, discard := false } (.other "list failed")) :=
  spec_C10.1 envC10 riW { version := 1, url := "http://reg" } [] { lastErr := none, discard := false }
    [] (.other "list failed") rfl rfl

/-- C9.  The byAPIVersion comparison orders a strictly lower protocol
version before a higher one and, among equal versions, an https URL before a
non-https one; the endpoint sequence iterated by getRemoteTagList is sorted
consistently with this comparison. -/
theorem spec_C9 :
    (∀ a b : APIEndpoint, a.version < b.version → byAPIVersionLess a b = true)
  ∧ (∀ a b : APIEndpoint, a.version = b.version → hasPrefixGo a.url "https://" = true →
        hasPrefixGo b.url "https://" = false → byAPIVersionLess a b = true)
  ∧ (∀ eps : List APIEndpoint,
        List.Pairwise (fun a b => byAPIVersionLess b a = false) (sortEndpoints eps))
  ∧ (∀ (env : Env) (ref : Ref) (ri : RepositoryInfo) (eps : List APIEndpoint),
        env.resolveRepository ref = .ok ri →
        env.validateRepoName ri.localName = none →
        env.lookupPullEndpoints ri.canonicalName = .ok eps →
        getRemoteTagList env ref
          = getRemoteTagListLoop env ri (sortEndpoints eps)
              { lastErr := none, discard := false }) := by
  refine ⟨?_, ?_, ?_, ?_⟩
  · intro a b h; simp [byAPIVersionLess, h]
  · intro a b hv h1 h2; simp [byAPIVersionLess, hv, h1, h2]
  · intro eps; exact List.sorted_insertionSort endpointLe eps
  · intro env ref ri eps h1 h2 h3; simp [getRemoteTagList, h1, h2, h3]

theorem spec_C9_witness :
    byAPIVersionLess { version := 2, url := "https://reg" }
      { version := 2, url := "http://reg" } = true :=
  spec_C9.2.1 { version := 2, url := "https://reg" } { version := 2, url := "http://reg" }
    rfl (by decide) (by decide)

theorem getRemoteTagListLoop_ok_sorted (env : Env) (ri : RepositoryInfo) :
    ∀ (eps : List APIEndpoint) (acc : ErrAcc) (tl : RepositoryTagList),
      getRemoteTagListLoop env ri eps acc = (some tl, none) →
      List.Pairwise (fun a b : RepositoryTag => a.tag ≤ b.tag) tl.tagList := by
  intro eps
  induction eps with
  | nil =>
    intro acc tl h
    cases hl : acc.lastErr <;> simp [getRemoteTagListLoop, hl] at h
  | cons ep rest ih =>
    intro acc tl h
    rcases hn : newTagLister ep with e | u
    · simp only [getRemoteTagListLoop, hn] at h
      exact ih _ tl h
    · rcases hl : env.listTags ep with ⟨tags, fb, err⟩
      cases err with
      | none =>
        simp only [getRemoteTagListLoop, hn, hl] at h
        simp only [Prod.mk.injEq, Option.some.injEq] at h
        rw [← h.1]
        exact List.Pairwise.imp (fun hab => (tagLe_iff _ _).mp hab)
          (List.sorted_insertionSort tagLe tags)
      | some e =>
        simp only [getRemoteTagListLoop, hn, hl] at h
        split at h
        · exact ih _ tl h
        · simp at h

/-- C8.  Every successful result of getRemoteTagList carries a tag list
sorted lexicographically ascending by tag name, whatever order the
underlying listers produced and whatever the endpoint order. -/
theorem spec_C8 (env : Env) (ref : Ref) (tl : RepositoryTagList)
    (h : getRemoteTagList env ref = (some tl, none)) :
    List.Pairwise (fun a b : RepositoryTag => a.tag ≤ b.tag) tl.tagList := by
  cases hr : env.resolveRepository ref with
  | error e => simp [getRemoteTagList, hr] at h
  | ok ri =>
    cases hv : env.validateRepoName ri.localName with
    | some e => simp [getRemoteTagList, hr, hv] at h
    | none =>
      cases hl : env.lookupPullEndpoints ri.canonicalName with
      | error e => simp [getRemoteTagList, hr, hv, hl] at h
      | ok eps =>
        rw [show getRemoteTagList env ref
            = getRemoteTagListLoop env ri (sortEndpoints eps)
                { lastErr := none, discard := false } from by
          simp [getRemoteTagList, hr, hv, hl]] at h
        exact getRemoteTagListLoop_ok_sorted env ri (sortEndpoints eps) _ tl h

def envC8 : Env :=
  { isReferenceFullyQualified := fun _ => true
    registryList := []
    fullyQualifyReferenceWith := fun _ r => .ok r
    resolveRepository := fun _ => .ok riW
    validateRepoName := fun _ => none
    validateRepositoryName := fun _ => none
    lookupPullEndpoints := fun _ => .ok [{ version := 2, url := "https://reg" }]
    fetch := fun _ _ => (none, false, none)
    listTags := fun _ =>
      ([{ tag := "b", imageID := "2" }, { tag := "a", imageID := "1" }], false, none) }

theorem spec_C8_witness :
    List.Pairwise (fun a b : RepositoryTag => a.tag ≤ b.tag)
      (RepositoryTagList.tagList
        { name := "docker.io/library/x"
          tagList := [{ tag := "a", imageID := "1" }, { tag := "b", imageID := "2" }] }) :=
  spec_C8 envC8 (Ref.name "x")
    { name := "docker.io/library/x"
      tagList := [{ tag := "a", imageID := "1" }, { tag := "b", imageID := "2" }] }
    (by decide)

theorem foldlDefaultTag (l : List String) :
    ∀ acc : String,
      l.foldl (fun tag t => if t = defaultTag then defaultTag else tag) acc
        = if defaultTag ∈ l then defaultTag else acc := by
  induction l with
  | nil => intro acc; simp
  | cons t ts ih =>
    intro acc
    by_cases h : t = defaultTag
    · subst h; simp [List.foldl_cons, ih, List.mem_cons]
    · rw [List.foldl_cons, if_neg h, ih]
      by_cases hm : defaultTag ∈ ts
      · rw [if_pos hm, if_pos (List.mem_cons.mpr (Or.inr hm))]
      · rw [if_neg hm, if_neg (by
          rw [List.mem_cons]
          rintro (hc | hc)
          · exact h hc.symm
          · exact hm hc)]

def envC5cex : V2Env :=
  { tags := .ok [""]
    existsByDigest := fun _ => .ok false
    getByDigest := fun _ => .ok none
    existsByTag := fun _ => .ok true
    getByTag := fun _ => .ok (some { payload := "m" })
    processManifest := fun _ _ =>
      (some { id := "img0", repoTags := [], registry := "docker.io" }, none) }

/-- C5 counterexample.  With a non-empty tag enumeration whose first (and
only) tag is the empty string and which does not contain the default tag,
the code does not fetch the manifest for the first tag: it fails with the
no-tags error, although fetching the first tag would have succeeded in this
environment.  This refutes the claim as stated, which promises a fetch of
the first tag for every non-empty enumeration. -/
theorem spec_C5_counterexample :
    v2FetchWithRepository envC5cex riW (Ref.name "library/x")
        = (none, some (.other "No tags available for remote repository docker.io/library/x"))
    ∧ v2ContinueWithTag envC5cex ""
        = (some { id := "img0", repoTags := [], registry := "docker.io" }, none)
    ∧ v2FetchWithRepository envC5cex riW (Ref.name "library/x")
        ≠ v2ContinueWithTag envC5cex "" :=
  ⟨rfl, rfl, by decide⟩

/-- C5 (amended).  For an unqualified reference on the v2 fetcher: when the
enumeration contains the default tag, the manifest is fetched for the
default tag regardless of position; otherwise, when the enumeration is
non-empty and its first tag is not the empty string, the manifest is
fetched for the first enumerated tag; when the enumeration is empty the
fetch fails with the no-tags error and produces no record. -/
theorem spec_C5 :
    (∀ (env : V2Env) (ri : RepositoryInfo) (n : String) (tagList : List String),
        env.tags = .ok tagList → defaultTag ∈ tagList →
        v2FetchWithRepository env ri (Ref.name n) = v2ContinueWithTag env defaultTag)
  ∧ (∀ (env : V2Env) (ri : RepositoryInfo) (n t : String) (ts : List String),
        env.tags = .ok (t :: ts) → defaultTag ∉ t :: ts → t ≠ "" →
        v2FetchWithRepository env ri (Ref.name n) = v2ContinueWithTag env t)
  ∧ (∀ (env : V2Env) (ri : RepositoryInfo) (n : String),
        env.tags = .ok [] →
        v2FetchWithRepository env ri (Ref.name n)
          = (none, some (.other ("No tags available for remote repository "
              ++ ri.canonicalName)))) := by
  refine ⟨?_, ?_, ?_⟩
  · intro env ri n tagList htags hmem
    simp only [v2FetchWithRepository, htags, foldlDefaultTag, if_pos hmem]
    simp [defaultTag]
  · intro env ri n t ts htags hmem ht
    simp only [v2FetchWithRepository, htags, foldlDefaultTag, if_neg hmem]
    simp [ht]
  · intro env ri n htags
    simp [v2FetchWithRepository, htags]

def envC5w : V2Env :=
  { tags := .ok ["1.0", "2.0"]
    existsByDigest := fun _ => .ok false
    getByDigest := fun _ => .ok none
    existsByTag := fun _ => .ok false
    getByTag := fun _ => .ok (some { payload := "m" })
    processManifest := fun _ _ =>
      (some { id := "img1", repoTags := [], registry := "docker.io" }, none) }

theorem spec_C5_witness :
    v2FetchWithRepository envC5w riW (Ref.name "library/x") = v2ContinueWithTag envC5w "1.0" :=
  spec_C5.2.1 envC5w riW "library/x" "1.0" ["2.0"] rfl (by decide) (by decide)

/-- C6.  In the v1 session fetch: an explicit tag absent from a non-empty
tag map fails with the tag-not-found error; an empty asked tag behaves
exactly like asking for the default tag when the map contains it, and
otherwise like asking for some tag of the map (the one the map iteration
yields first); an empty tag map fails with the no-tags error whatever the
pull collaborator would do. -/
theorem spec_C6 :
    (∀ (env : V1SessionEnv) (ri : RepositoryInfo) (askedTag : String) (rd : RepoData)
        (tagsList : List (String × String)),
        env.repoData = .ok rd → env.remoteTags = .ok tagsList → tagsList ≠ [] →
        askedTag ≠ "" → List.lookup askedTag tagsList = none →
        fetchWithSession env ri askedTag
          = (none, some (.other ("Tag " ++ askedTag ++ " not found in repository "
              ++ ri.canonicalName))))
  ∧ (∀ (env : V1SessionEnv) (ri : RepositoryInfo) (rd : RepoData)
        (tagsList : List (String × String)),
        env.repoData = .ok rd → env.remoteTags = .ok tagsList →
        (List.lookup defaultTag tagsList).isSome = true →
        fetchWithSession env ri "" = fetchWithSession env ri defaultTag)
  ∧ (∀ (env : V1SessionEnv) (ri : RepositoryInfo) (rd : RepoData)
        (p : String × String) (ps : List (String × String)),
        env.repoData = .ok rd → env.remoteTags = .ok (p :: ps) →
        (List.lookup defaultTag (p :: ps)).isSome = false →
        ∃ q ∈ p :: ps, fetchWithSession env ri "" = fetchWithSession env ri q.1)
  ∧ (∀ (env : V1SessionEnv) (ri : RepositoryInfo) (askedTag : String) (rd : RepoData),
        env.repoData = .ok rd → env.remoteTags = .ok [] →
        fetchWithSession env ri askedTag
          = (none, some (.other ("No tags available for remote repository "
              ++ ri.canonicalName)))) := by
  refine ⟨?_, ?_, ?_, ?_⟩
  · intro env ri askedTag rd tagsList hrd htags hne hAsked hlookup
    have hlen : ¬ tagsList.length < 1 := by
      have := List.length_pos.mpr hne; omega
    simp only [fetchWithSession, hrd, htags, if_neg hlen]
    simp [hAsked, hlookup]
  · intro env ri rd tagsList hrd htags hlat
    have hne : tagsList ≠ [] := by
      intro h; subst h; simp [List.lookup] at hlat
    have hlen : ¬ tagsList.length < 1 := by
      have := List.length_pos.mpr hne; omega
    simp only [fetchWithSession, hrd, htags, if_neg hlen]
    simp only [defaultTag] at hlat ⊢
    simp [hlat]
  · intro env ri rd p ps hrd htags hlat
    refine ⟨p, List.mem_cons_self p ps, ?_⟩
    have hlen : ¬ (p :: ps).length < 1 := by simp
    simp only [fetchWithSession, hrd, htags, if_neg hlen]
    simp only [defaultTag] at hlat ⊢
    by_cases hp : p.1 = ""
    · simp [hlat, hp]
    · simp [hlat, hp]
  · intro env ri askedTag rd hrd htags
    simp [fetchWithSession, hrd, htags]

def envC6 : V1SessionEnv :=
  { repoData := .ok { endpoints := ["https://reg/v1"] }
    remoteTags := .ok [("latest", "id1"), ("1.0", "id2")]
    pullImageJSON := fun _ _ => .ok { id := "id1" } }

theorem spec_C6_witness :
    fetchWithSession envC6 riW "" = fetchWithSession envC6 riW defaultTag :=
  spec_C6.2.1 envC6 riW { endpoints := ["https://reg/v1"] }
    [("latest", "id1"), ("1.0", "id2")] rfl rfl (by decide)

theorem pullImageLoop_lastFail (pull : String → String → Except RegErr Image) (imgID : String) :
    ∀ (l : List String) (a : String) (e : RegErr),
      (∀ x ∈ l, ∃ e0, pull imgID x = .error e0) →
      l.getLast? = some a → pull imgID a = .error e →
      ∀ st, pullImageLoop pull imgID l st = (none, some e) := by
  intro l
  induction l with
  | nil => intro a e _ hlast _ _; simp at hlast
  | cons x t ih =>
    intro a e hall hlast he st
    obtain ⟨e0, hx⟩ := hall x (List.mem_cons_self x t)
    cases t with
    | nil =>
      simp only [List.getLast?_singleton, Option.some.injEq] at hlast
      subst hlast
      simp [pullImageLoop, he]
    | cons y t2 =>
      have hlast2 : (y :: t2).getLast? = some a := by
        rwa [List.getLast?_cons_cons] at hlast
      simp only [pullImageLoop, hx]
      exact ih a e (fun z hz => hall z (List.mem_cons_of_mem x hz)) hlast2 he (none, some e0)

theorem pullImageLoop_allFail_none (pull : String → String → Except RegErr Image)
    (imgID : String) :
    ∀ l : List String, (∀ x ∈ l, ∃ e0, pull imgID x = .error e0) →
      ∀ st : Option Image × Option RegErr, st.1 = none →
      (pullImageLoop pull imgID l st).1 = none := by
  intro l
  induction l with
  | nil => intro _ st h; simpa [pullImageLoop] using h
  | cons x t ih =>
    intro hall st _
    obtain ⟨e0, hx⟩ := hall x (List.mem_cons_self x t)
    simp only [pullImageLoop, hx]
    exact ih (fun z hz => hall z (List.mem_cons_of_mem x hz)) (none, some e0) rfl

/-- C7.  In the v1 image retrieval: each failing mirror is non-fatal (the
loop records the error and moves on), a success stops the loop immediately
with the image, primary endpoints are consulted only when no mirror produced
an image (and the result is then independent of the endpoint list), and when
every mirror and every endpoint fails the phase ends with the error of the
last address tried, which fetchWithSession returns wrapped together with
that last underlying cause. -/
theorem spec_C7 :
    (∀ (pull : String → String → Except RegErr Image) (imgID m : String) (ms : List String)
        (st : Option Image × Option RegErr) (e : RegErr),
        pull imgID m = .error e →
        pullImageLoop pull imgID (m :: ms) st = pullImageLoop pull imgID ms (none, some e))
  ∧ (∀ (pull : String → String → Except RegErr Image) (imgID m : String) (ms : List String)
        (st : Option Image × Option RegErr) (img : Image),
        pull imgID m = .ok img →
        pullImageLoop pull imgID (m :: ms) st = (some img, none))
  ∧ (∀ (pull : String → String → Except RegErr Image) (imgID : String)
        (mirrors : List String) (img : Image) (eps eps2 : List String),
        pullImageLoop pull imgID mirrors (none, none) = (some img, none) →
        pullImagePhase pull imgID mirrors eps = (some img, none)
        ∧ pullImagePhase pull imgID mirrors eps
            = pullImagePhase pull imgID mirrors eps2)
  ∧ (∀ (pull : String → String → Except RegErr Image) (imgID : String)
        (mirrors eps : List String) (a : String) (e : RegErr),
        (∀ x ∈ mirrors ++ eps, ∃ e0, pull imgID x = .error e0) →
        (if eps = [] then mirrors else eps).getLast? = some a →
        pull imgID a = .error e →
        pullImagePhase pull imgID mirrors eps = (none, some e))
  ∧ (∀ (env : V1SessionEnv) (ri : RepositoryInfo) (askedTag : String) (rd : RepoData)
        (tagsList : List (String × String)) (id : String) (e : RegErr),
        env.repoData = .ok rd → env.remoteTags = .ok tagsList → tagsList ≠ [] →
        askedTag ≠ "" → List.lookup askedTag tagsList = some id →
        pullImagePhase env.pullImageJSON id ri.mirrors rd.endpoints = (none, some e) →
        fetchWithSession env ri askedTag
          = (none, some (wrapPullError (imgTagFor tagsList id) ri.canonicalName e))) := by
  refine ⟨?_, ?_, ?_, ?_, ?_⟩
  · intro pull imgID m ms st e h; simp [pullImageLoop, h]
  · intro pull imgID m ms st img h; simp [pullImageLoop, h]
  · intro pull imgID mirrors img eps eps2 h
    constructor <;> simp [pullImagePhase, h]
  · intro pull imgID mirrors eps a e hall hlast he
    by_cases heps : eps = []
    · subst heps
      rw [if_pos rfl] at hlast
      have hst := pullImageLoop_lastFail pull imgID mirrors a e
        (fun z hz => hall z (List.mem_append_left _ hz)) hlast he (none, none)
      simp [pullImagePhase, hst, pullImageLoop]
    · rw [if_neg heps] at hlast
      have hstn : (pullImageLoop pull imgID mirrors (none, none)).1 = none :=
        pullImageLoop_allFail_none pull imgID mirrors
          (fun z hz => hall z (List.mem_append_left _ hz)) (none, none) rfl
      simp [pullImagePhase, hstn,
        pullImageLoop_lastFail pull imgID eps a e
          (fun z hz => hall z (List.mem_append_right _ hz)) hlast he]
  · intro env ri askedTag rd tagsList id e hrd htags hne hAsked hlookup hphase
    have hlen : ¬ tagsList.length < 1 := by
      have := List.length_pos.mpr hne; omega
    simp only [fetchWithSession, hrd, htags, if_neg hlen]
    simp [hAsked, hlookup, hphase]

theorem spec_C7_witness :
    pullImagePhase (fun _ _ => .error (.other "connection refused")) "id1"
        ["mirror1"] ["ep1", "ep2"]
      = (none, some (.other "connection refused")) :=
  spec_C7.2.2.2.1 (fun _ _ => .error (.other "connection refused")) "id1"
    ["mirror1"] ["ep1", "ep2"] "ep2" (.other "connection refused")
    (fun _ _ => ⟨.other "connection refused", rfl⟩) (by decide) rfl

/-- Outcome of one registry candidate inside the loop of Inspect: the
qualification error, or the error component of fetchManifest on the
qualified reference (none meaning the candidate succeeds). -/
def inspectCandidateErr (env : Env) (ref : Ref) (r : String) : Option RegErr :=
  match env.fullyQualifyReferenceWith r ref with
  | .error e => some e
  | .ok fqr => (fetchManifest env fqr).2

/-- Outcome of one registry candidate inside the loop of ListRemoteTags. -/
def listCandidateErr (env : Env) (ref : Ref) (r : String) : Option RegErr :=
  match env.fullyQualifyReferenceWith r ref with
  | .error e => some e
  | .ok fqr => (getRemoteTagList env fqr).2

theorem fetchManifestLoop_fail_none (env : Env) (ri : RepositoryInfo) (ref : Ref) :
    ∀ (eps : List APIEndpoint) (acc : ErrAcc),
      (fetchManifestLoop env ri ref eps acc).1 = none
      ∨ (fetchManifestLoop env ri ref eps acc).2 = none := by
  intro eps
  induction eps with
  | nil =>
    intro acc
    cases hl : acc.lastErr <;> simp [fetchManifestLoop, hl]
  | cons ep rest ih =>
    intro acc
    rcases hn : newManifestFetcher ep with e' | u
    · simpa only [fetchManifestLoop, hn] using ih _
    · rcases hf : env.fetch ep ref with ⟨img, fb, err⟩
      cases err with
      | none => right; simp [fetchManifestLoop, hn, hf]
      | some e2 =>
        cases fb with
        | true => simpa only [fetchManifestLoop, hn, hf, if_true] using ih _
        | false => left; simp [fetchManifestLoop, hn, hf]

theorem fetchManifest_fail_none (env : Env) (ref : Ref) :
    (fetchManifest env ref).1 = none ∨ (fetchManifest env ref).2 = none := by
  cases hr : env.resolveRepository ref with
  | error e1 => left; simp [fetchManifest, hr]
  | ok ri =>
    cases hv : env.validateRepoName ri.localName with
    | some e1 => left; simp [fetchManifest, hr, hv]
    | none =>
      cases hl : env.lookupPullEndpoints ri.canonicalName with
      | error e1 => left; simp [fetchManifest, hr, hv, hl]
      | ok eps =>
        rw [show fetchManifest env ref
            = fetchManifestLoop env ri ref eps { lastErr := none, discard := false } from by
          simp [fetchManifest, hr, hv, hl]]
        exact fetchManifestLoop_fail_none env ri ref eps _

theorem getRemoteTagListLoop_fail_none (env : Env) (ri : RepositoryInfo) :
    ∀ (eps : List APIEndpoint) (acc : ErrAcc),
      (getRemoteTagListLoop env ri eps acc).1 = none
      ∨ (getRemoteTagListLoop env ri eps acc).2 = none := by
  intro eps
  induction eps with
  | nil =>
    intro acc
    cases hl : acc.lastErr <;> simp [getRemoteTagListLoop, hl]
  | cons ep rest ih =>
    intro acc
    rcases hn : newTagLister ep with e' | u
    · simpa only [getRemoteTagListLoop, hn] using ih _
    · rcases hf : env.listTags ep with ⟨tags, fb, err⟩
      cases err with
      | none => right; simp [getRemoteTagListLoop, hn, hf]
      | some e2 =>
        by_cases hc : (fb || ep.version == 1) = true
        · simpa only [getRemoteTagListLoop, hn, hf, if_pos hc] using ih _
        · left
          simp only [Bool.or_eq_true, beq_iff_eq] at hc
          simp [getRemoteTagListLoop, hn, hf, hc]

theorem getRemoteTagList_fail_none (env : Env) (ref : Ref) :
    (getRemoteTagList env ref).1 = none ∨ (getRemoteTagList env ref).2 = none := by
  cases hr : env.resolveRepository ref with
  | error e1 => left; simp [getRemoteTagList, hr]
  | ok ri =>
    cases hv : env.validateRepoName ri.localName with
    | some e1 => left; simp [getRemoteTagList, hr, hv]
    | none =>
      cases hl : env.lookupPullEndpoints ri.canonicalName with
      | error e1 => left; simp [getRemoteTagList, hr, hv, hl]
      | ok eps =>
        rw [show getRemoteTagList env ref
            = getRemoteTagListLoop env ri (sortEndpoints eps)
                { lastErr := none, discard := false } from by
          simp [getRemoteTagList, hr, hv, hl]]
        exact getRemoteTagListLoop_fail_none env ri (sortEndpoints eps) _

theorem inspectLoop_skipFailed (env : Env) (ref : Ref) :
    ∀ rs1 : List String, (∀ r ∈ rs1, inspectCandidateErr env ref r ≠ none) →
      ∀ (l : List String) (err : Option RegErr),
        ∃ err2, inspectLoop env ref (rs1 ++ l) none err = inspectLoop env ref l none err2 := by
  intro rs1
  induction rs1 with
  | nil => intro _ l err; exact ⟨err, rfl⟩
  | cons r t ih =>
    intro hall l err
    rcases hq : env.fullyQualifyReferenceWith r ref with e0 | fqr
    · simp only [List.cons_append, inspectLoop, hq]
      exact ih (fun z hz => hall z (List.mem_cons_of_mem _ hz)) l (some e0)
    · rcases hfm : fetchManifest env fqr with ⟨res, err'⟩
      cases err' with
      | none =>
        exact absurd (by simp [inspectCandidateErr, hq, hfm])
          (hall r (List.mem_cons_self r t))
      | some e2 =>
        have hres : res = none := by
          have hd := fetchManifest_fail_none env fqr
          rw [hfm] at hd
          rcases hd with h1 | h1
          · exact h1
          · simp at h1
        subst hres
        simp only [List.cons_append, inspectLoop, hq, hfm]
        exact ih (fun z hz => hall z (List.mem_cons_of_mem _ hz)) l (some e2)

theorem inspectLoop_allFail (env : Env) (ref : Ref) :
    ∀ (rs : List String) (rlast : String) (e : RegErr),
      (∀ r ∈ rs, inspectCandidateErr env ref r ≠ none) →
      rs.getLast? = some rlast →
      inspectCandidateErr env ref rlast = some e →
      ∀ err, inspectLoop env ref rs none err = (none, some e) := by
  intro rs
  induction rs with
  | nil => intro rlast e _ hlast _ _; simp at hlast
  | cons r t ih =>
    intro rlast e hall hlast hle err
    rcases hq : env.fullyQualifyReferenceWith r ref with e0 | fqr
    · cases t with
      | nil =>
        simp only [List.getLast?_singleton, Option.some.injEq] at hlast
        subst hlast
        have h1 := hle
        rw [show inspectCandidateErr env ref r = some e0 from by
          simp [inspectCandidateErr, hq]] at h1
        injection h1 with h2
        subst h2
        simp [inspectLoop, hq]
      | cons y t2 =>
        have hlast2 : (y :: t2).getLast? = some rlast := by
          rwa [List.getLast?_cons_cons] at hlast
        simp only [inspectLoop, hq]
        exact ih rlast e (fun z hz => hall z (List.mem_cons_of_mem _ hz)) hlast2 hle (some e0)
    · rcases hfm : fetchManifest env fqr with ⟨res, err'⟩
      cases err' with
      | none =>
        exact absurd (by simp [inspectCandidateErr, hq, hfm])
          (hall r (List.mem_cons_self r t))
      | some e2 =>
        have hres : res = none := by
          have hd := fetchManifest_fail_none env fqr
          rw [hfm] at hd
          rcases hd with h1 | h1
          · exact h1
          · simp at h1
        subst hres
        cases t with
        | nil =>
          simp only [List.getLast?_singleton, Option.some.injEq] at hlast
          subst hlast
          have h1 := hle
          rw [show inspectCandidateErr env ref r = some e2 from by
            simp [inspectCandidateErr, hq, hfm]] at h1
          injection h1 with h2
          subst h2
          simp [inspectLoop, hq, hfm]
        | cons y t2 =>
          have hlast2 : (y :: t2).getLast? = some rlast := by
            rwa [List.getLast?_cons_cons] at hlast
          simp only [inspectLoop, hq, hfm]
          exact ih rlast e (fun z hz => hall z (List.mem_cons_of_mem _ hz)) hlast2 hle (some e2)

theorem listRemoteTagsLoop_skipFailed (env : Env) (ref : Ref) :
    ∀ rs1 : List String, (∀ r ∈ rs1, listCandidateErr env ref r ≠ none) →
      ∀ (l : List String) (err : Option RegErr),
        ∃ err2, listRemoteTagsLoop env ref (rs1 ++ l) none err
          = listRemoteTagsLoop env ref l none err2 := by
  intro rs1
  induction rs1 with
  | nil => intro _ l err; exact ⟨err, rfl⟩
  | cons r t ih =>
    intro hall l err
    rcases hq : env.fullyQualifyReferenceWith r ref with e0 | fqr
    · simp only [List.cons_append, listRemoteTagsLoop, hq]
      exact ih (fun z hz => hall z (List.mem_cons_of_mem _ hz)) l (some e0)
    · rcases hfm : getRemoteTagList env fqr with ⟨res, err'⟩
      cases err' with
      | none =>
        exact absurd (by simp [listCandidateErr, hq, hfm])
          (hall r (List.mem_cons_self r t))
      | some e2 =>
        have hres : res = none := by
          have hd := getRemoteTagList_fail_none env fqr
          rw [hfm] at hd
          rcases hd with h1 | h1
          · exact h1
          · simp at h1
        subst hres
        simp only [List.cons_append, listRemoteTagsLoop, hq, hfm]
        exact ih (fun z hz => hall z (List.mem_cons_of_mem _ hz)) l (some e2)

theorem listRemoteTagsLoop_allFail (env : Env) (ref : Ref) :
    ∀ (rs : List String) (rlast : String) (e : RegErr),
      (∀ r ∈ rs, listCandidateErr env ref r ≠ none) →
      rs.getLast? = some rlast →
      listCandidateErr env ref rlast = some e →
      ∀ err, listRemoteTagsLoop env ref rs none err = (none, some e) := by
  intro rs
  induction rs with
  | nil => intro rlast e _ hlast _ _; simp at hlast
  | cons r t ih =>
    intro rlast e hall hlast hle err
    rcases hq : env.fullyQualifyReferenceWith r ref with e0 | fqr
    · cases t with
      | nil =>
        simp only [List.getLast?_singleton, Option.some.injEq] at hlast
        subst hlast
        have h1 := hle
        rw [show listCandidateErr env ref r = some e0 from by
          simp [listCandidateErr, hq]] at h1
        injection h1 with h2
        subst h2
        simp [listRemoteTagsLoop, hq]
      | cons y t2 =>
        have hlast2 : (y :: t2).getLast? = some rlast := by
          rwa [List.getLast?_cons_cons] at hlast
        simp only [listRemoteTagsLoop, hq]
        exact ih rlast e (fun z hz => hall z (List.mem_cons_of_mem _ hz)) hlast2 hle (some e0)
    · rcases hfm : getRemoteTagList env fqr with ⟨res, err'⟩
      cases err' with
      | none =>
        exact absurd (by simp [listCandidateErr, hq, hfm])
          (hall r (List.mem_cons_self r t))
      | some e2 =>
        have hres : res = none := by
          have hd := getRemoteTagList_fail_none env fqr
          rw [hfm] at hd
          rcases hd with h1 | h1
          · exact h1
          · simp at h1
        subst hres
        cases t with
        | nil =>
          simp only [List.getLast?_singleton, Option.some.injEq] at hlast
          subst hlast
          have h1 := hle
          rw [show listCandidateErr env ref r = some e2 from by
            simp [listCandidateErr, hq, hfm]] at h1
          injection h1 with h2
          subst h2
          simp [listRemoteTagsLoop, hq, hfm]
        | cons y t2 =>
          have hlast2 : (y :: t2).getLast? = some rlast := by
            rwa [List.getLast?_cons_cons] at hlast
          simp only [listRemoteTagsLoop, hq, hfm]
          exact ih rlast e (fun z hz => hall z (List.mem_cons_of_mem _ hz)) hlast2 hle (some e2)

/-- C2.  A fully qualified reference resolves through a single fetchManifest
or getRemoteTagList call, with no iteration over the configured registry
list; an unqualified reference walks the candidates in list order, stops at
the first candidate whose resolution succeeds and returns its result with no
error whatever candidates remain, and when every candidate fails the error
of the last candidate is the one returned. -/
theorem spec_C2 :
    (∀ (env : Env) (ref : Ref), env.isReferenceFullyQualified ref = true →
        Inspect env ref = fetchManifest env ref
        ∧ ListRemoteTags env ref = getRemoteTagList env ref)
  ∧ (∀ (env : Env) (ref : Ref) (rs1 : List String) (r : String) (rs2 : List String)
        (fqr : Ref) (res : Option RemoteImageInspect),
        env.isReferenceFullyQualified ref = false →
        env.registryList = rs1 ++ r :: rs2 →
        (∀ r' ∈ rs1, inspectCandidateErr env ref r' ≠ none) →
        env.fullyQualifyReferenceWith r ref = .ok fqr →
        fetchManifest env fqr = (res, none) →
        Inspect env ref = (res, none))
  ∧ (∀ (env : Env) (ref : Ref) (rs : List String) (rlast : String) (e : RegErr),
        env.isReferenceFullyQualified ref = false →
        env.registryList = rs →
        (∀ r ∈ rs, inspectCandidateErr env ref r ≠ none) →
        rs.getLast? = some rlast →
        inspectCandidateErr env ref rlast = some e →
        Inspect env ref = (none, some e))
  ∧ (∀ (env : Env) (ref : Ref) (rs1 : List String) (r : String) (rs2 : List String)
        (fqr : Ref) (res : Option RepositoryTagList),
        env.isReferenceFullyQualified ref = false →
        env.validateRepositoryName ref = none →
        env.registryList = rs1 ++ r :: rs2 →
        (∀ r' ∈ rs1, listCandidateErr env ref r' ≠ none) →
        env.fullyQualifyReferenceWith r ref = .ok fqr →
        getRemoteTagList env fqr = (res, none) →
        ListRemoteTags env ref = (res, none))
  ∧ (∀ (env : Env) (ref : Ref) (rs : List String) (rlast : String) (e : RegErr),
        env.isReferenceFullyQualified ref = false →
        env.validateRepositoryName ref = none →
        env.registryList = rs →
        (∀ r ∈ rs, listCandidateErr env ref r ≠ none) →
        rs.getLast? = some rlast →
        listCandidateErr env ref rlast = some e →
        ListRemoteTags env ref = (none, some e)) := by
  refine ⟨?_, ?_, ?_, ?_, ?_⟩
  · intro env ref h
    exact ⟨by simp [Inspect, h], by simp [ListRemoteTags, h]⟩
  · intro env ref rs1 r rs2 fqr res hq0 hreg hfail hok hfm
    have hlen : ¬ env.registryList.length = 0 := by rw [hreg]; simp
    rw [show Inspect env ref = inspectLoop env ref env.registryList none none from by
      simp [Inspect, hq0, hlen]]
    rw [hreg]
    obtain ⟨err2, hstep⟩ := inspectLoop_skipFailed env ref rs1 hfail (r :: rs2) none
    rw [hstep]
    simp [inspectLoop, hok, hfm]
  · intro env ref rs rlast e hq0 hreg hfail hlast hle
    have hne : rs ≠ [] := by intro h0; subst h0; simp at hlast
    have hlen : ¬ env.registryList.length = 0 := by
      rw [hreg]; simpa using hne
    rw [show Inspect env ref = inspectLoop env ref env.registryList none none from by
      simp [Inspect, hq0, hlen]]
    rw [hreg]
    exact inspectLoop_allFail env ref rs rlast e hfail hlast hle none
  · intro env ref rs1 r rs2 fqr res hq0 hval hreg hfail hok hfm
    have hlen : ¬ env.registryList.length = 0 := by rw [hreg]; simp
    rw [show ListRemoteTags env ref = listRemoteTagsLoop env ref env.registryList none none from by
      simp [ListRemoteTags, hq0, hlen, hval]]
    rw [hreg]
    obtain ⟨err2, hstep⟩ := listRemoteTagsLoop_skipFailed env ref rs1 hfail (r :: rs2) none
    rw [hstep]
    simp [listRemoteTagsLoop, hok, hfm]
  · intro env ref rs rlast e hq0 hval hreg hfail hlast hle
    have hne : rs ≠ [] := by intro h0; subst h0; simp at hlast
    have hlen : ¬ env.registryList.length = 0 := by
      rw [hreg]; simpa using hne
    rw [show ListRemoteTags env ref = listRemoteTagsLoop env ref env.registryList none none from by
      simp [ListRemoteTags, hq0, hlen, hval]]
    rw [hreg]
    exact listRemoteTagsLoop_allFail env ref rs rlast e hfail hlast hle none

def envC2 : Env :=
  { isReferenceFullyQualified := fun _ => false
    registryList := ["r1", "r2"]
    fullyQualifyReferenceWith := fun r ref =>
      match ref with
      | .name n => .ok (.name (r ++ "/" ++ n))
      | .tagged n t => .ok (.tagged (r ++ "/" ++ n) t)
      | .digested n d => .ok (.digested (r ++ "/" ++ n) d)
    resolveRepository := fun ref =>
      match ref with
      | .name n =>
        if hasPrefixGo n "r2/" then
          .ok { canonicalName := n, localName := n, remoteName := n,
                indexName := "r2", mirrors := [] }
        else .error (.other "unknown registry")
      | _ => .error (.other "unsupported reference")
    validateRepoName := fun _ => none
    validateRepositoryName := fun _ => none
    lookupPullEndpoints := fun _ => .ok [{ version := 2, url := "https://r2" }]
    fetch := fun _ _ => (some { id := "img2", repoTags := [], registry := "r2" }, false, none)
    listTags := fun _ => ([], false, none) }

theorem spec_C2_witness :
    Inspect envC2 (Ref.name "x")
      = (some { id := "img2", repoTags := [], registry := "r2" }, none) :=
  spec_C2.2.1 envC2 (Ref.name "x") ["r1"] "r2" [] (Ref.name "r2/x")
    (some { id := "img2", repoTags := [], registry := "r2" })
    rfl rfl
    (by intro r' hr; rw [List.mem_singleton] at hr; subst hr; decide)
    rfl rfl
